import Mathlib

/-!
Verification of the column type model and generator protocol of the
`barrel` schema-definition library.

The Rust source consists of two files:
  * `src/types/impls.rs` — the `BaseType` enum and the `Type<T>` metadata
    envelope with its consuming builder methods;
  * `src/generators/mod.rs` — the `DatabaseGenerator` and `TableGenerator`
    trait declarations.

Each definition below is a direct shallow embedding of the corresponding
Rust item: Rust `&'static str` becomes `String`, `usize` becomes `Nat`,
`Option` becomes `Option`, `#[derive(Clone)]` on `BaseType` becomes the
structurally recursive `BaseType.clone`, and the consuming builder methods
(`fn nullable(self, arg: bool) -> Self { Self { nullable: arg, ..self } }`
and friends) become the `apply` function on an inductive of builder calls.
-/

namespace Barrel

/-- Embedding of the Rust enum `BaseType` from `src/types/impls.rs`:
`Text | Varchar | Primary | Integer | Float | Double | Boolean | Binary |
Foreign(&'static str) | Custom(&'static str) | Array(Box<BaseType>)`. -/
inductive BaseType where
  | Text : BaseType
  | Varchar : BaseType
  | Primary : BaseType
  | Integer : BaseType
  | Float : BaseType
  | Double : BaseType
  | Boolean : BaseType
  | Binary : BaseType
  | Foreign (table : String) : BaseType
  | Custom (name : String) : BaseType
  | Array (elem : BaseType) : BaseType
deriving DecidableEq, Repr

/-- Embedding of the `#[derive(Clone)]` implementation on `BaseType`:
each variant is rebuilt field by field, recursing through `Array`. -/
def BaseType.clone : BaseType → BaseType
  | .Text => .Text
  | .Varchar => .Varchar
  | .Primary => .Primary
  | .Integer => .Integer
  | .Float => .Float
  | .Double => .Double
  | .Boolean => .Boolean
  | .Binary => .Binary
  | .Foreign t => .Foreign t
  | .Custom n => .Custom n
  | .Array e => .Array e.clone

/-- Embedding of the Rust struct `Type<T>` from `src/types/impls.rs`
(`Type` itself is not a legal Lean identifier, hence the prime): public
fields `nullable`, `unique`, `increments`, `indexed`, `default`, `size`
and the private field `inner`. -/
structure Type' (T : Type) where
  nullable : Bool
  unique : Bool
  increments : Bool
  indexed : Bool
  default : Option T
  size : Option Nat
  inner : BaseType
deriving DecidableEq, Repr

/-- Embedding of `Type::new(inner: BaseType)`: every metadata field at its
default (`false` / `None`), `inner` stored as given. -/
def Type'.new {T : Type} (inner : BaseType) : Type' T :=
  { nullable := false
    unique := false
    increments := false
    indexed := false
    default := none
    size := none
    inner := inner }

/-- Embedding of `Type::validate(&self) -> bool`, whose body is `true`. -/
def Type'.validate {T : Type} (_t : Type' T) : Bool :=
  true

/-- Embedding of `Type::get_inner(&self) -> BaseType`, whose body is
`self.inner.clone()`. -/
def Type'.get_inner {T : Type} (t : Type' T) : BaseType :=
  t.inner.clone

/-- One consuming builder call on a `Type<T>` value: the six public
builder methods of `impl<T> Type<T>` together with their argument.
The Rust `default` method takes `impl Into<T>` and stores `arg.into()`;
the conversion happens at the call boundary, so the call carries the
already-converted `T` value. -/
inductive BuilderCall (T : Type) where
  | nullable (arg : Bool) : BuilderCall T
  | unique (arg : Bool) : BuilderCall T
  | increments (arg : Bool) : BuilderCall T
  | indexed (arg : Bool) : BuilderCall T
  | default (arg : T) : BuilderCall T
  | size (arg : Nat) : BuilderCall T
deriving DecidableEq

/-- Embedding of the six builder method bodies: each is a functional
record update `Self { field: arg, ..self }` (with `Some(arg)` for
`default` and `size`). -/
def apply {T : Type} (t : Type' T) : BuilderCall T → Type' T
  | .nullable a => { t with nullable := a }
  | .unique a => { t with unique := a }
  | .increments a => { t with increments := a }
  | .indexed a => { t with indexed := a }
  | .default a => { t with default := some a }
  | .size a => { t with size := some a }

/-- A finite sequence of builder calls applied left to right, as in a Rust
method chain `t.nullable(true).size(255)`. -/
def applyAll {T : Type} (t : Type' T) (calls : List (BuilderCall T)) : Type' T :=
  calls.foldl apply t

/-- The six metadata field names of `Type<T>`, used to state frame and
commutation properties. -/
inductive Field where
  | nullable : Field
  | unique : Field
  | increments : Field
  | indexed : Field
  | default : Field
  | size : Field
deriving DecidableEq

/-- The metadata field a builder call writes. -/
def fieldOf {T : Type} : BuilderCall T → Field
  | .nullable _ => .nullable
  | .unique _ => .unique
  | .increments _ => .increments
  | .indexed _ => .indexed
  | .default _ => .default
  | .size _ => .size

/-- Two `Type<T>` values agree on the given metadata field. -/
def fieldEq {T : Type} (f : Field) (t u : Type' T) : Prop :=
  match f with
  | .nullable => t.nullable = u.nullable
  | .unique => t.unique = u.unique
  | .increments => t.increments = u.increments
  | .indexed => t.indexed = u.indexed
  | .default => t.default = u.default
  | .size => t.size = u.size

/-- The value a builder call stores in its target field: `arg` itself for
the four booleans, `Some(arg)` for `default` and `size`. -/
def setsTo {T : Type} : BuilderCall T → Type' T → Prop
  | .nullable a, u => u.nullable = a
  | .unique a, u => u.unique = a
  | .increments a, u => u.increments = a
  | .indexed a, u => u.indexed = a
  | .default a, u => u.default = some a
  | .size a, u => u.size = some a

/-- Specification-side definition, following the spec's words: the value
of the `nullable` field after a call sequence is the argument of the last
`nullable` call, or the start value `d` if there is none. -/
def lastNullable {T : Type} (d : Bool) (calls : List (BuilderCall T)) : Bool :=
  calls.foldl (fun acc c => match c with | .nullable a => a | _ => acc) d

/-- Specification-side: last `unique` argument, or the start value. -/
def lastUnique {T : Type} (d : Bool) (calls : List (BuilderCall T)) : Bool :=
  calls.foldl (fun acc c => match c with | .unique a => a | _ => acc) d

/-- Specification-side: last `increments` argument, or the start value. -/
def lastIncrements {T : Type} (d : Bool) (calls : List (BuilderCall T)) : Bool :=
  calls.foldl (fun acc c => match c with | .increments a => a | _ => acc) d

/-- Specification-side: last `indexed` argument, or the start value. -/
def lastIndexed {T : Type} (d : Bool) (calls : List (BuilderCall T)) : Bool :=
  calls.foldl (fun acc c => match c with | .indexed a => a | _ => acc) d

/-- Specification-side: `Some` of the last `default` argument, or the
start value. -/
def lastDefault {T : Type} (d : Option T) (calls : List (BuilderCall T)) : Option T :=
  calls.foldl (fun acc c => match c with | .default a => some a | _ => acc) d

/-- Specification-side: `Some` of the last `size` argument, or the start
value. -/
def lastSize {T : Type} (d : Option Nat) (calls : List (BuilderCall T)) : Option Nat :=
  calls.foldl (fun acc c => match c with | .size a => some a | _ => acc) d

/-- Embedding of the trait `DatabaseGenerator` from `src/generators/mod.rs`:
a dialect implementation is a record of six table-level rendering
functions, each from plain identifiers to a string. -/
structure DatabaseGenerator where
  create_table : String → String
  create_table_if_not_exists : String → String
  drop_table : String → String
  drop_table_if_exists : String → String
  rename_table : String → String → String
  modify_table : String → String

/-- Embedding of the trait `TableGenerator` from `src/generators/mod.rs`:
a dialect implementation is a record of seven column-level rendering
functions. `increments()` takes no argument and is a constant string. -/
structure TableGenerator where
  drop_column : String → String
  rename_column : String → String → String
  increments : String
  integer : String → String
  text : String → String
  string : String → String
  timestamp : String → String

/-- Derived `Clone` rebuilds a `BaseType` value unchanged. -/
theorem BaseType.clone_eq (b : BaseType) : b.clone = b := by
  induction b <;> simp [BaseType.clone, *]

theorem applyAll_nil {T : Type} (t : Type' T) : applyAll t [] = t := rfl

theorem applyAll_cons {T : Type} (t : Type' T) (c : BuilderCall T)
    (cs : List (BuilderCall T)) : applyAll t (c :: cs) = applyAll (apply t c) cs := rfl

/-- No builder call touches the hidden `inner` field. -/
theorem apply_inner {T : Type} (t : Type' T) (c : BuilderCall T) :
    (apply t c).inner = t.inner := by
  cases c <;> rfl

/-- No sequence of builder calls touches the hidden `inner` field. -/
theorem applyAll_inner {T : Type} (calls : List (BuilderCall T)) :
    ∀ t : Type' T, (applyAll t calls).inner = t.inner := by
  induction calls with
  | nil => intro t; rfl
  | cons c cs ih =>
      intro t
      rw [applyAll_cons, ih, apply_inner]

theorem applyAll_nullable {T : Type} (calls : List (BuilderCall T)) :
    ∀ t : Type' T, (applyAll t calls).nullable = lastNullable t.nullable calls := by
  induction calls with
  | nil => intro t; rfl
  | cons c cs ih =>
      intro t
      rw [applyAll_cons, ih]
      cases c <;> rfl

theorem applyAll_unique {T : Type} (calls : List (BuilderCall T)) :
    ∀ t : Type' T, (applyAll t calls).unique = lastUnique t.unique calls := by
  induction calls with
  | nil => intro t; rfl
  | cons c cs ih =>
      intro t
      rw [applyAll_cons, ih]
      cases c <;> rfl

theorem applyAll_increments {T : Type} (calls : List (BuilderCall T)) :
    ∀ t : Type' T, (applyAll t calls).increments = lastIncrements t.increments calls := by
  induction calls with
  | nil => intro t; rfl
  | cons c cs ih =>
      intro t
      rw [applyAll_cons, ih]
      cases c <;> rfl

theorem applyAll_indexed {T : Type} (calls : List (BuilderCall T)) :
    ∀ t : Type' T, (applyAll t calls).indexed = lastIndexed t.indexed calls := by
  induction calls with
  | nil => intro t; rfl
  | cons c cs ih =>
      intro t
      rw [applyAll_cons, ih]
      cases c <;> rfl

theorem applyAll_default {T : Type} (calls : List (BuilderCall T)) :
    ∀ t : Type' T, (applyAll t calls).default = lastDefault t.default calls := by
  induction calls with
  | nil => intro t; rfl
  | cons c cs ih =>
      intro t
      rw [applyAll_cons, ih]
      cases c <;> rfl

theorem applyAll_size {T : Type} (calls : List (BuilderCall T)) :
    ∀ t : Type' T, (applyAll t calls).size = lastSize t.size calls := by
  induction calls with
  | nil => intro t; rfl
  | cons c cs ih =>
      intro t
      rw [applyAll_cons, ih]
      cases c <;> rfl

/-- Builder calls that write different fields commute. -/
theorem apply_comm {T : Type} (t : Type' T) (c₁ c₂ : BuilderCall T)
    (h : fieldOf c₁ ≠ fieldOf c₂) :
    apply (apply t c₁) c₂ = apply (apply t c₂) c₁ := by
  cases c₁ <;> cases c₂ <;> first
    | exact absurd rfl h
    | rfl

/-- A single builder call keeps `default` at `Some` once it is `Some`. -/
theorem apply_default_isSome {T : Type} (t : Type' T) (c : BuilderCall T)
    (h : t.default.isSome) : ((apply t c).default).isSome := by
  cases c <;> simp_all [apply]

/-- A single builder call keeps `size` at `Some` once it is `Some`. -/
theorem apply_size_isSome {T : Type} (t : Type' T) (c : BuilderCall T)
    (h : t.size.isSome) : ((apply t c).size).isSome := by
  cases c <;> simp_all [apply]

/-- A call sequence keeps `default` at `Some` once it is `Some`. -/
theorem applyAll_default_isSome {T : Type} (calls : List (BuilderCall T)) :
    ∀ t : Type' T, t.default.isSome → ((applyAll t calls).default).isSome := by
  induction calls with
  | nil => intro t h; exact h
  | cons c cs ih =>
      intro t h
      rw [applyAll_cons]
      exact ih _ (apply_default_isSome t c h)

/-- A call sequence keeps `size` at `Some` once it is `Some`. -/
theorem applyAll_size_isSome {T : Type} (calls : List (BuilderCall T)) :
    ∀ t : Type' T, t.size.isSome → ((applyAll t calls).size).isSome := by
  induction calls with
  | nil => intro t h; exact h
  | cons c cs ih =>
      intro t h
      rw [applyAll_cons]
      exact ih _ (apply_size_isSome t c h)

/-- If a `default` call occurs anywhere in the sequence, the resulting
`default` field is `Some`. -/
theorem mem_default_isSome {T : Type} (calls : List (BuilderCall T)) :
    ∀ t : Type' T, (∃ v, BuilderCall.default v ∈ calls) →
      ((applyAll t calls).default).isSome := by
  induction calls with
  | nil => rintro t ⟨v, hv⟩; cases hv
  | cons c cs ih =>
      rintro t ⟨v, hv⟩
      rw [applyAll_cons]
      cases hv with
      | head => exact applyAll_default_isSome cs _ (by simp [apply])
      | tail _ hm => exact ih _ ⟨v, hm⟩

/-- If a `size` call occurs anywhere in the sequence, the resulting
`size` field is `Some`. -/
theorem mem_size_isSome {T : Type} (calls : List (BuilderCall T)) :
    ∀ t : Type' T, (∃ n, BuilderCall.size n ∈ calls) →
      ((applyAll t calls).size).isSome := by
  induction calls with
  | nil => rintro t ⟨n, hn⟩; cases hn
  | cons c cs ih =>
      rintro t ⟨n, hn⟩
      rw [applyAll_cons]
      cases hn with
      | head => exact applyAll_size_isSome cs _ (by simp [apply])
      | tail _ hm => exact ih _ ⟨n, hm⟩

/-- A sample dialect record used to instantiate the generator contracts
on concrete inputs. -/
def demoDatabaseGenerator : DatabaseGenerator :=
  { create_table := fun n => "CREATE TABLE " ++ n
    create_table_if_not_exists := fun n => "CREATE TABLE IF NOT EXISTS " ++ n
    drop_table := fun n => "DROP TABLE " ++ n
    drop_table_if_exists := fun n => "DROP TABLE IF EXISTS " ++ n
    rename_table := fun o n => "ALTER TABLE " ++ o ++ " RENAME TO " ++ n
    modify_table := fun n => "ALTER TABLE " ++ n }

/-- A sample dialect record for the column-level contract. -/
def demoTableGenerator : TableGenerator :=
  { drop_column := fun n => "DROP COLUMN " ++ n
    rename_column := fun o n => "RENAME COLUMN " ++ o ++ " TO " ++ n
    increments := "SERIAL PRIMARY KEY"
    integer := fun n => n ++ " INTEGER"
    text := fun n => n ++ " TEXT"
    string := fun n => n ++ " VARCHAR(255)"
    timestamp := fun n => n ++ " TIMESTAMP" }

/-- Claim C1: for every `Type<T>` value, regardless of which builder calls
were applied and with which arguments, `validate()` returns `true`. -/
theorem validate_always_true (T : Type) (t : Type' T) : t.validate = true := rfl

/-- Claim C2: for every finite sequence of builder calls applied to a
freshly constructed `Type<T>`, each observable metadata field of the
result equals the argument of the last call that set that field (or the
constructor default if no call set it), and any two calls that set
different fields commute. -/
theorem builder_last_write_wins (T : Type) (b : BaseType)
    (calls : List (BuilderCall T)) :
    (applyAll (Type'.new b : Type' T) calls).nullable = lastNullable false calls
    ∧ (applyAll (Type'.new b : Type' T) calls).unique = lastUnique false calls
    ∧ (applyAll (Type'.new b : Type' T) calls).increments = lastIncrements false calls
    ∧ (applyAll (Type'.new b : Type' T) calls).indexed = lastIndexed false calls
    ∧ (applyAll (Type'.new b : Type' T) calls).default = lastDefault none calls
    ∧ (applyAll (Type'.new b : Type' T) calls).size = lastSize none calls
    ∧ ∀ (u : Type' T) (c₁ c₂ : BuilderCall T), fieldOf c₁ ≠ fieldOf c₂ →
        apply (apply u c₁) c₂ = apply (apply u c₂) c₁ :=
  ⟨applyAll_nullable calls _, applyAll_unique calls _, applyAll_increments calls _,
   applyAll_indexed calls _, applyAll_default calls _, applyAll_size calls _,
   fun u c₁ c₂ h => apply_comm u c₁ c₂ h⟩

theorem builder_last_write_wins_witness :
    apply (apply (Type'.new BaseType.Text : Type' Nat) (BuilderCall.nullable true))
        (BuilderCall.size 3)
      = apply (apply (Type'.new BaseType.Text : Type' Nat) (BuilderCall.size 3))
        (BuilderCall.nullable true) :=
  (builder_last_write_wins Nat BaseType.Text []).2.2.2.2.2.2
    (Type'.new BaseType.Text) (BuilderCall.nullable true) (BuilderCall.size 3) (by decide)

/-- Claim C3: every single builder call changes exactly one metadata field
(setting it to its argument) and leaves every other field unchanged; the
hidden `inner` is preserved by every call, so `get_inner()` after any
sequence of calls returns the `BaseType` passed to the constructor. -/
theorem builder_frame (T : Type) (t : Type' T) (c : BuilderCall T)
    (b : BaseType) (calls : List (BuilderCall T)) :
    (apply t c).inner = t.inner
    ∧ setsTo c (apply t c)
    ∧ (∀ f : Field, f ≠ fieldOf c → fieldEq f t (apply t c))
    ∧ (applyAll (Type'.new b : Type' T) calls).get_inner = b := by
  refine ⟨apply_inner t c, ?_, ?_, ?_⟩
  · cases c <;> rfl
  · intro f hf
    cases c <;> cases f <;> first
      | exact absurd rfl hf
      | rfl
  · rw [Type'.get_inner, applyAll_inner]
    exact BaseType.clone_eq b

theorem builder_frame_witness :
    fieldEq Field.unique (Type'.new BaseType.Text : Type' Nat)
      (apply (Type'.new BaseType.Text : Type' Nat) (BuilderCall.nullable true)) :=
  (builder_frame Nat (Type'.new BaseType.Text) (BuilderCall.nullable true)
    BaseType.Text []).2.2.1 Field.unique (by decide)

/-- Claim C4: for every `BaseType` value `b`, constructing a `Type` with
inner `Array(Array(b))` and calling `get_inner()` returns exactly
`Array(Array(b))`. -/
theorem array_array_roundtrip (T : Type) (b : BaseType) :
    (Type'.new (BaseType.Array (BaseType.Array b)) : Type' T).get_inner
      = BaseType.Array (BaseType.Array b) :=
  BaseType.clone_eq (BaseType.Array (BaseType.Array b))

/-- Claim C5: for every `BaseType` value passed to the constructor, the
fresh `Type<T>` has `nullable = false`, `unique = false`,
`increments = false`, `indexed = false`, `default = None`, `size = None`. -/
theorem new_defaults (T : Type) (b : BaseType) :
    (Type'.new b : Type' T).nullable = false
    ∧ (Type'.new b : Type' T).unique = false
    ∧ (Type'.new b : Type' T).increments = false
    ∧ (Type'.new b : Type' T).indexed = false
    ∧ (Type'.new b : Type' T).default = none
    ∧ (Type'.new b : Type' T).size = none :=
  ⟨rfl, rfl, rfl, rfl, rfl, rfl⟩

/-- Claim C6: applying `nullable(true)` then `nullable(false)` to a fresh
`Type` yields a value equal (on every observable field, `inner` included)
to a freshly constructed `Type` with the same inner. -/
theorem nullable_true_then_false (T : Type) (b : BaseType) :
    apply (apply (Type'.new b : Type' T) (BuilderCall.nullable true))
        (BuilderCall.nullable false)
      = Type'.new b := rfl

/-- Claim C7: every operation of the generator protocol is a pure function
from its identifier arguments to a string: in the embedding a dialect is a
record of functions with no state parameter, and two calls of any
operation on equal arguments return equal strings. -/
theorem generator_protocol_deterministic
    (g : DatabaseGenerator) (tg : TableGenerator)
    (a b c d : String) (hab : a = b) (hcd : c = d) :
    g.create_table a = g.create_table b
    ∧ g.create_table_if_not_exists a = g.create_table_if_not_exists b
    ∧ g.drop_table a = g.drop_table b
    ∧ g.drop_table_if_exists a = g.drop_table_if_exists b
    ∧ g.rename_table a c = g.rename_table b d
    ∧ g.modify_table a = g.modify_table b
    ∧ tg.drop_column a = tg.drop_column b
    ∧ tg.rename_column a c = tg.rename_column b d
    ∧ tg.increments = tg.increments
    ∧ tg.integer a = tg.integer b
    ∧ tg.text a = tg.text b
    ∧ tg.string a = tg.string b
    ∧ tg.timestamp a = tg.timestamp b := by
  subst hab
  subst hcd
  exact ⟨rfl, rfl, rfl, rfl, rfl, rfl, rfl, rfl, rfl, rfl, rfl, rfl, rfl⟩

theorem generator_protocol_deterministic_witness :
    demoDatabaseGenerator.create_table "users"
      = demoDatabaseGenerator.create_table "users" :=
  (generator_protocol_deterministic demoDatabaseGenerator demoTableGenerator
    "users" "users" "a" "a" rfl rfl).1

/-- Claim C8: every operation of the column type model (constructor, each
builder call, `validate`, `get_inner`) is total: for every input —
including `size(0)` and arbitrary default values — it returns a value. -/
theorem column_model_total (T : Type) (t : Type' T) (c : BuilderCall T)
    (b : BaseType) (d : T) :
    (∃ u, apply t c = u)
    ∧ (∃ u, (Type'.new b : Type' T) = u)
    ∧ (∃ v, t.validate = v)
    ∧ (∃ e, t.get_inner = e)
    ∧ (apply t (BuilderCall.size 0)).size = some 0
    ∧ (apply t (BuilderCall.default d)).default = some d
    ∧ ∀ calls : List (BuilderCall T), ∃ u, applyAll t calls = u :=
  ⟨⟨_, rfl⟩, ⟨_, rfl⟩, ⟨_, rfl⟩, ⟨_, rfl⟩, rfl, rfl, fun _ => ⟨_, rfl⟩⟩

/-- Claim C9: once `default` is `Some(v)`, every subsequent builder call
leaves it `Some`; likewise for `size`; and any sequence containing a
`default` (resp. `size`) call ends with that field `Some`. -/
theorem default_size_stay_some (T : Type) (t : Type' T) (c : BuilderCall T)
    (b : BaseType) (calls : List (BuilderCall T)) :
    (t.default.isSome → ((apply t c).default).isSome)
    ∧ (t.size.isSome → ((apply t c).size).isSome)
    ∧ ((∃ v, BuilderCall.default v ∈ calls) →
        ((applyAll (Type'.new b : Type' T) calls).default).isSome)
    ∧ ((∃ n, BuilderCall.size n ∈ calls) →
        ((applyAll (Type'.new b : Type' T) calls).size).isSome) :=
  ⟨apply_default_isSome t c, apply_size_isSome t c,
   mem_default_isSome calls _, mem_size_isSome calls _⟩

theorem default_size_stay_some_witness :
    ((apply (apply (Type'.new BaseType.Integer : Type' Nat) (BuilderCall.default 5))
        (BuilderCall.unique true)).default).isSome :=
  (default_size_stay_some Nat
    (apply (Type'.new BaseType.Integer) (BuilderCall.default 5))
    (BuilderCall.unique true) BaseType.Integer []).1 (by decide)

/-- Claim C10: `get_inner()` is non-consuming and deterministic: it
returns a copy of the stored `inner`, and calls on values with equal
`inner` fields return equal `BaseType` values. -/
theorem get_inner_pure (T : Type) (t u : Type' T) :
    t.get_inner = t.inner
    ∧ (u.inner = t.inner → u.get_inner = t.get_inner) := by
  constructor
  · exact BaseType.clone_eq t.inner
  · intro h
    rw [Type'.get_inner, Type'.get_inner, h]

theorem get_inner_pure_witness :
    (apply (Type'.new BaseType.Varchar : Type' Nat) (BuilderCall.size 255)).get_inner
      = (Type'.new BaseType.Varchar : Type' Nat).get_inner :=
  (get_inner_pure Nat (Type'.new BaseType.Varchar)
    (apply (Type'.new BaseType.Varchar) (BuilderCall.size 255))).2 (by decide)

end Barrel
